import Mathlib

/-!
Shallow embedding of `src/index.ts` of rollup-plugin-body-iife.

The plugin splits a file's text into its static-import region and its body
region, checks that no further static imports occur in the body, wraps the
body in an IIFE, and recombines.  JavaScript semantics that matter here are
modelled explicitly: `String.prototype.split("\n")` (which yields `[""]` on
the empty string), `Array.prototype.findIndex` (which returns `-1` when no
element matches), `Array.prototype.slice` with a possibly negative start
index, `Array.prototype.join("\n")`, and `/^\s/` (the ECMAScript whitespace
class).  Fallible code (`throw new ImportInBodyError(...)`) is modelled with
`Except`, and `transform`'s `string | undefined` result with `Option String`
(`none` is the "no change" signal given by `return;`).
-/

/-- Splits a character list at every newline character.  Model of JavaScript
`code.split("\n")` at the character level: the result is always nonempty, and
the empty input yields one empty line, matching `"".split("\n") === [""]`. -/
def splitLinesAux : List Char → List (List Char)
  | [] => [[]]
  | c :: cs =>
    match splitLinesAux cs with
    | [] => [[]]
    | r :: rs => if c = '\n' then [] :: r :: rs else (c :: r) :: rs

/-- `code.split("\n")` from `splitSource` (src/index.ts line 54). -/
def splitLines (code : String) : List String :=
  (splitLinesAux code.toList).map (fun l => String.mk l)

/-- `Array.prototype.join("\n")`, used by `splitSource` (line 65) and
`transform` (line 104): empty list gives `""`, singleton gives the element,
otherwise the pieces are interleaved with single newlines. -/
def joinLines : List String → String
  | [] => ""
  | [s] => s
  | s :: t :: rest => s ++ "\n" ++ joinLines (t :: rest)

/-- Character-level counterpart of `joinLines`, for the round-trip proof. -/
def joinChars : List (List Char) → List Char
  | [] => []
  | [l] => l
  | l :: t :: rest => l ++ '\n' :: joinChars (t :: rest)

/-- `beginsWithChars ps cs` decides whether `ps` is a prefix of `cs`; the
character-level model of JavaScript `String.prototype.startsWith`. -/
def beginsWithChars : List Char → List Char → Bool
  | [], _ => true
  | _ :: _, [] => false
  | p :: ps, c :: cs => p == c && beginsWithChars ps cs

/-- `line.startsWith(pre)` for strings. -/
def startsWithStr (pre s : String) : Bool :=
  beginsWithChars pre.toList s.toList

/-- The ECMAScript `\s` character class: whitespace, line terminators and the
Unicode space separators, as matched by the regex `/^\s/` in
`couldBeImportBlockLine` (src/index.ts line 42). -/
def isJsWhitespace (c : Char) : Bool :=
  c = ' ' || c = '\t' || c = '\n' || c = '\r' || c = '\x0b' || c = '\x0c' ||
  c = '\u00A0' || c = '\uFEFF' || c = '\u1680' ||
  ('\u2000' ≤ c && c ≤ '\u200A') ||
  c = '\u2028' || c = '\u2029' || c = '\u202F' || c = '\u205F' || c = '\u3000'

/-- `/^\s/.test(line)`: the line's first character exists and is whitespace. -/
def startsWithWhitespace (line : String) : Bool :=
  match line.toList with
  | [] => false
  | c :: _ => isJsWhitespace c

/-- `const isImportStatementStart = (line) => line.startsWith("import ")`
(src/index.ts line 20). -/
def isImportStatementStart (line : String) : Bool :=
  startsWithStr "import " line

/-- `couldBeImportBlockLine` (src/index.ts lines 29-42): a line could still be
part of the import region when it is blank, starts a comment, starts a
static import, closes a multiline import with a brace, or is indented. -/
def couldBeImportBlockLine (line : String) : Bool :=
  line == "" ||
  startsWithStr "//" line ||
  startsWithStr "/*" line ||
  isImportStatementStart line ||
  startsWithStr "\x7d" line ||
  startsWithWhitespace line

/-- `Array.prototype.findIndex`: index of the first element satisfying `p`,
or `-1` when none does. -/
def jsFindIndex (p : α → Bool) (l : List α) : Int :=
  match l.findIdx? p with
  | some i => (i : Int)
  | none => -1

/-- `l.slice(start)` for a possibly negative `start`: a negative start counts
from the end of the array (clamped at 0). -/
def jsSliceFrom (l : List α) (start : Int) : List α :=
  if start < 0 then l.drop ((l.length + start).toNat) else l.drop start.toNat

/-- `l.slice(0, stop)` for a possibly negative `stop`: a negative stop counts
from the end of the array (clamped at 0). -/
def jsSliceUpTo (l : List α) (stop : Int) : List α :=
  if stop < 0 then l.take ((l.length + stop).toNat) else l.take stop.toNat

/-- The error thrown when a static import is found in the body portion
(`class ImportInBodyError`, src/index.ts lines 10-18).  It carries the line
number reported in its message `Found import after body started (line:1)`. -/
structure ImportInBodyError where
  lineNumber : Int
deriving DecidableEq, Repr

deriving instance DecidableEq for Except

/-- `lines.findIndex(line => !couldBeImportBlockLine(line))`
(src/index.ts line 55): the `bodyStart` value of `splitSource`. -/
def regionBoundary (code : String) : Int :=
  jsFindIndex (fun line => !couldBeImportBlockLine line) (splitLines code)

/-- `lines.slice(bodyStart)` (src/index.ts line 57): the body region as a
line list. -/
def bodyRegion (code : String) : List String :=
  jsSliceFrom (splitLines code) (regionBoundary code)

/-- `lines.slice(0, bodyStart)` (src/index.ts line 65): the import region as
a line list. -/
def importRegionLines (code : String) : List String :=
  jsSliceUpTo (splitLines code) (regionBoundary code)

/-- `splitSource` (src/index.ts lines 53-66): split a file into its static
imports and everything else, throwing `ImportInBodyError` when a line of the
body starts an import statement. -/
def splitSource (code : String) : Except ImportInBodyError (String × String) :=
  let body := bodyRegion code
  if body.any isImportStatementStart then
    Except.error ⟨regionBoundary code + (body.findIdx isImportStatementStart : Int)⟩
  else
    Except.ok (joinLines (importRegionLines code), joinLines body)

/-- `wrapInIife` (src/index.ts lines 74-77): wrap a block of code in an
immediately-invoked function expression, with a trailing newline. -/
def wrapInIife (code : String) : String :=
  "(function() \x7b\n" ++ code ++ "\n\x7d)();\n"

/-- `transform` (src/index.ts lines 100-105).  The rollup `createFilter`
eligibility predicate is an external collaborator, passed in as `filter`.
A rejected file id returns `none` (the bare `return;`, i.e. "no change");
otherwise the import region and the wrapped body are joined by a newline. -/
def transform (filter : String → Bool) (code id : String) :
    Except ImportInBodyError (Option String) :=
  if !filter id then Except.ok none
  else
    match splitSource code with
    | Except.error e => Except.error e
    | Except.ok (imports, body) => Except.ok (some (joinLines [imports, wrapInIife body]))

/-! ### Helper lemmas about the line model -/

theorem splitLinesAux_ne_nil (cs : List Char) : splitLinesAux cs ≠ [] := by
  cases cs with
  | nil => simp [splitLinesAux]
  | cons c cs =>
    simp only [splitLinesAux]
    cases h : splitLinesAux cs with
    | nil => simp
    | cons r rs =>
      by_cases hc : c = '\n' <;> simp [hc]

theorem joinChars_splitLinesAux (cs : List Char) :
    joinChars (splitLinesAux cs) = cs := by
  induction cs with
  | nil => rfl
  | cons c cs ih =>
    cases h : splitLinesAux cs with
    | nil => exact absurd h (splitLinesAux_ne_nil cs)
    | cons r rs =>
      rw [h] at ih
      have hstep : splitLinesAux (c :: cs) =
          if c = '\n' then [] :: r :: rs else (c :: r) :: rs := by
        simp only [splitLinesAux, h]
      rw [hstep]
      by_cases hc : c = '\n'
      · subst hc
        simpa [joinChars] using ih
      · rw [if_neg hc]
        cases rs with
        | nil =>
          simp only [joinChars] at ih ⊢
          rw [ih]
        | cons t ts =>
          simp only [joinChars, List.cons_append] at ih ⊢
          rw [← ih]

theorem string_mk_append (a b : List Char) :
    String.mk (a ++ b) = String.mk a ++ String.mk b := rfl

theorem joinLines_map_mk (ls : List (List Char)) :
    joinLines (ls.map (fun l => String.mk l)) = String.mk (joinChars ls) := by
  induction ls with
  | nil => rfl
  | cons l ls ih =>
    cases ls with
    | nil => rfl
    | cons t ts =>
      simp only [List.map_cons, joinLines, joinChars] at ih ⊢
      rw [ih, ← string_mk_append, ← string_mk_append]
      congr 1
      simp

theorem joinLines_splitLines (code : String) :
    joinLines (splitLines code) = code := by
  rw [splitLines, joinLines_map_mk, joinChars_splitLinesAux]
  rfl

theorem splitLines_ne_nil (code : String) : splitLines code ≠ [] := by
  intro h
  exact splitLinesAux_ne_nil code.toList (by simpa [splitLines] using h)

theorem joinLines_cons (s : String) (l : List String) (h : l ≠ []) :
    joinLines (s :: l) = s ++ "\n" ++ joinLines l := by
  cases l with
  | nil => exact absurd rfl h
  | cons t ts => rfl

theorem joinLines_append (a b : List String) (ha : a ≠ []) (hb : b ≠ []) :
    joinLines (a ++ b) = joinLines a ++ "\n" ++ joinLines b := by
  induction a with
  | nil => exact absurd rfl ha
  | cons x xs ih =>
    cases xs with
    | nil =>
      simpa [joinLines] using joinLines_cons x b hb
    | cons y ys =>
      rw [List.cons_append, joinLines_cons x ((y :: ys) ++ b) (by simp),
        joinLines_cons x (y :: ys) (by simp), ih (by simp)]
      simp [String.append_assoc]

theorem beginsWithChars_iff (ps cs : List Char) :
    beginsWithChars ps cs = true ↔ ∃ t, cs = ps ++ t := by
  induction ps generalizing cs with
  | nil =>
    simp only [beginsWithChars, List.nil_append]
    exact iff_of_true trivial ⟨cs, rfl⟩
  | cons p ps ih =>
    cases cs with
    | nil => simp [beginsWithChars]
    | cons c cs =>
      simp only [beginsWithChars, Bool.and_eq_true, beq_iff_eq, ih, List.cons_append,
        List.cons.injEq]
      constructor
      · rintro ⟨rfl, t, rfl⟩
        exact ⟨t, rfl, rfl⟩
      · rintro ⟨t, rfl, rfl⟩
        exact ⟨rfl, t, rfl⟩

/-! ### Lemmas about the boundary and the two regions -/

theorem regionBoundary_of_findIdx?_some {code : String} {i : Nat}
    (h : (splitLines code).findIdx? (fun line => !couldBeImportBlockLine line) = some i) :
    regionBoundary code = (i : Int) := by
  simp [regionBoundary, jsFindIndex, h]

theorem regionBoundary_of_findIdx?_none {code : String}
    (h : (splitLines code).findIdx? (fun line => !couldBeImportBlockLine line) = none) :
    regionBoundary code = -1 := by
  simp [regionBoundary, jsFindIndex, h]

theorem importRegionLines_of_some {code : String} {i : Nat}
    (h : (splitLines code).findIdx? (fun line => !couldBeImportBlockLine line) = some i) :
    importRegionLines code = (splitLines code).take i := by
  simp only [importRegionLines, regionBoundary_of_findIdx?_some h, jsSliceUpTo]
  rw [if_neg (by omega), Int.toNat_natCast]

theorem bodyRegion_of_some {code : String} {i : Nat}
    (h : (splitLines code).findIdx? (fun line => !couldBeImportBlockLine line) = some i) :
    bodyRegion code = (splitLines code).drop i := by
  simp only [bodyRegion, regionBoundary_of_findIdx?_some h, jsSliceFrom]
  rw [if_neg (by omega), Int.toNat_natCast]

theorem importRegionLines_of_none {code : String}
    (h : (splitLines code).findIdx? (fun line => !couldBeImportBlockLine line) = none) :
    importRegionLines code = (splitLines code).take ((splitLines code).length - 1) := by
  simp only [importRegionLines, regionBoundary_of_findIdx?_none h, jsSliceUpTo]
  rw [if_pos (by omega)]
  congr 1
  omega

theorem bodyRegion_of_none {code : String}
    (h : (splitLines code).findIdx? (fun line => !couldBeImportBlockLine line) = none) :
    bodyRegion code = (splitLines code).drop ((splitLines code).length - 1) := by
  simp only [bodyRegion, regionBoundary_of_findIdx?_none h, jsSliceFrom]
  rw [if_pos (by omega)]
  congr 1
  omega

theorem splitSource_eq_ok {code : String}
    (hany : (bodyRegion code).any isImportStatementStart = false) :
    splitSource code =
      Except.ok (joinLines (importRegionLines code), joinLines (bodyRegion code)) := by
  simp [splitSource, hany]

theorem splitSource_ok_parts {code imp bod : String}
    (h : splitSource code = Except.ok (imp, bod)) :
    imp = joinLines (importRegionLines code) ∧ bod = joinLines (bodyRegion code) := by
  simp only [splitSource] at h
  split at h
  · exact absurd h (by simp)
  · simp only [Except.ok.injEq, Prod.mk.injEq] at h
    exact ⟨h.1.symm, h.2.symm⟩

theorem regions_reconstruct (code : String)
    (hb : 1 ≤ regionBoundary code ∨
      (regionBoundary code = -1 ∧ 2 ≤ (splitLines code).length)) :
    joinLines (importRegionLines code) ++ "\n" ++ joinLines (bodyRegion code) = code := by
  cases hfi : (splitLines code).findIdx? (fun line => !couldBeImportBlockLine line) with
  | none =>
    have hb2 : 2 ≤ (splitLines code).length := by
      rcases hb with hb | hb
      · rw [regionBoundary_of_findIdx?_none hfi] at hb
        omega
      · exact hb.2
    rw [importRegionLines_of_none hfi, bodyRegion_of_none hfi,
      ← joinLines_append _ _ ?_ ?_, List.take_append_drop, joinLines_splitLines]
    · intro hnil
      rcases List.take_eq_nil_iff.mp hnil with h0 | h0
      · omega
      · exact splitLines_ne_nil code h0
    · intro hnil
      have := List.drop_eq_nil_iff.mp hnil
      omega
  | some i =>
    have hilen : i < (splitLines code).length :=
      (List.findIdx?_eq_some_iff_findIdx_eq.mp hfi).1
    have hi1 : 1 ≤ i := by
      rcases hb with hb | hb
      · rw [regionBoundary_of_findIdx?_some hfi] at hb
        omega
      · rw [regionBoundary_of_findIdx?_some hfi] at hb
        omega
    rw [importRegionLines_of_some hfi, bodyRegion_of_some hfi,
      ← joinLines_append _ _ ?_ ?_, List.take_append_drop, joinLines_splitLines]
    · intro hnil
      rcases List.take_eq_nil_iff.mp hnil with h0 | h0
      · omega
      · exact splitLines_ne_nil code h0
    · intro hnil
      have := List.drop_eq_nil_iff.mp hnil
      omega

/-! ### Claim theorems -/

/-- Claim C1 (corrected).  The claim as stated is false: when the Region
Boundary is 0 the import-region text is empty and
`imports ++ "\n" ++ body` prepends a spurious newline, and on a single-line
input where every line satisfies the predicate, `findIndex` returns `-1`,
the last line migrates into the body region, and the concatenation again
gains a leading newline.  Amended: whenever the splitter succeeds and its
boundary value is at least 1 — or `-1` with at least two lines — the
concatenation of import-region text, a newline, and body-region text
reconstructs the input exactly. -/
theorem C1_amended (code imp bod : String)
    (h : splitSource code = Except.ok (imp, bod))
    (hb : 1 ≤ regionBoundary code ∨
      (regionBoundary code = -1 ∧ 2 ≤ (splitLines code).length)) :
    imp ++ "\n" ++ bod = code := by
  obtain ⟨h1, h2⟩ := splitSource_ok_parts h
  rw [h1, h2]
  exact regions_reconstruct code hb

/-- Concrete instance of `C1_amended`: the splitter output of
`import "m";\n\ng();` recombines to the original text. -/
theorem C1_witness :
    splitSource "import \"m\";\n\ng();" = Except.ok ("import \"m\";\n", "g();") ∧
    "import \"m\";\n" ++ "\n" ++ "g();" = "import \"m\";\n\ng();" :=
  ⟨by decide, C1_amended _ _ _ (by decide) (Or.inl (by decide))⟩

/-- Counterexample to claim C1 as stated: on the input `g();` the boundary
is 0, the import-region text is empty, and the concatenation
`"" ++ "\n" ++ "g();"` is not the original text. -/
theorem C1_counterexample :
    splitSource "g();" = Except.ok ("", "g();") ∧
    regionBoundary "g();" = 0 ∧
    "" ++ "\n" ++ "g();" ≠ "g();" := by
  refine ⟨by decide, by decide, by decide⟩

/-- Claim C2 (code bug).  On the one-line input `import { f } from "x";`
every line satisfies `couldBeImportBlockLine`, so the claim (and spec) say
the boundary is the line count 1, the whole file is import region and the
body is empty.  The code's `findIndex` instead returns `-1`, `slice(-1)`
makes the final line the body region, and `splitSource` throws
`ImportInBodyError` with line number `-1`.  Likewise the all-comment input
`// only a comment` returns the whole line as body, not as import region. -/
theorem C2_code_eval :
    regionBoundary "import \x7b f \x7d from \"x\";" = -1 ∧
    (splitLines "import \x7b f \x7d from \"x\";").length = 1 ∧
    splitSource "import \x7b f \x7d from \"x\";" = Except.error ⟨-1⟩ ∧
    splitSource "// only a comment" = Except.ok ("", "// only a comment") := by
  refine ⟨by decide, by decide, by decide, by decide⟩

/-- Claim C4 (code bug).  The positive scenario holds: on
`g();\nimport { f } from "x";` the error carries line number 1, the 0-based
index of the offending line.  But on `import "a";\nimport "b";` (every line
satisfies the predicate) the error carries line number `-1`, while the
offending line `import "b";` has 0-based source index 1 — the carried
number is boundary (`-1`) plus body offset (0), not a source index. -/
theorem C4_code_eval :
    splitSource "g();\nimport \x7b f \x7d from \"x\";" = Except.error ⟨1⟩ ∧
    splitSource "import \"a\";\nimport \"b\";" = Except.error ⟨-1⟩ ∧
    (splitLines "import \"a\";\nimport \"b\";").getD 1 "" = "import \"b\";" := by
  refine ⟨by decide, by decide, by decide⟩

/-- Claim C9 (confirmed).  On the multi-line import input the boundary falls
right after the `} from "x";` line: the import region is the four import
lines and the body region is exactly `body();`, with no error raised. -/
theorem C9_multiline :
    splitSource "import \x7b\n  a,\n  b\n\x7d from \"x\";\nbody();" =
      Except.ok ("import \x7b\n  a,\n  b\n\x7d from \"x\";", "body();") ∧
    regionBoundary "import \x7b\n  a,\n  b\n\x7d from \"x\";\nbody();" = 4 ∧
    importRegionLines "import \x7b\n  a,\n  b\n\x7d from \"x\";\nbody();" =
      ["import \x7b", "  a,", "  b", "\x7d from \"x\";"] ∧
    bodyRegion "import \x7b\n  a,\n  b\n\x7d from \"x\";\nbody();" = ["body();"] := by
  refine ⟨by decide, by decide, by decide, by decide⟩

/-- Claim C3 (confirmed).  `splitSource` throws `ImportInBodyError` exactly
when some line of the body region (as produced by the splitter) starts with
`import `; when no such line exists it succeeds, returning the body-region
text unchanged (the joined body lines), which `transform` then hands to the
wrapper. -/
theorem C3_guard (code : String) :
    ((∃ e, splitSource code = Except.error e) ↔
      (bodyRegion code).any isImportStatementStart = true) ∧
    ((bodyRegion code).any isImportStatementStart = false →
      splitSource code =
        Except.ok (joinLines (importRegionLines code), joinLines (bodyRegion code))) := by
  constructor
  · constructor
    · rintro ⟨e, he⟩
      by_contra hne
      have hany : (bodyRegion code).any isImportStatementStart = false := by
        cases h : (bodyRegion code).any isImportStatementStart
        · rfl
        · exact absurd h hne
      rw [splitSource_eq_ok hany] at he
      exact Except.noConfusion he
    · intro hany
      refine ⟨⟨regionBoundary code + ((bodyRegion code).findIdx isImportStatementStart : Int)⟩, ?_⟩
      simp [splitSource, hany]
  · exact fun hany => splitSource_eq_ok hany

/-- Concrete instance of `C3_guard`: the body of `g();\nh();` contains no
line starting with `import `, so the guard succeeds and the body text
passes through unchanged. -/
theorem C3_witness :
    splitSource "g();\nh();" =
      Except.ok (joinLines (importRegionLines "g();\nh();"),
        joinLines (bodyRegion "g();\nh();")) ∧
    splitSource "g();\nh();" = Except.ok ("", "g();\nh();") :=
  ⟨(C3_guard "g();\nh();").2 (by decide), by decide⟩

/-- Claim C5 (confirmed).  The wrapper is total, produces exactly the fixed
opening token, the input verbatim and contiguous, and the fixed closing
token with a trailing newline — and is therefore injective. -/
theorem C5_wrap (a b : String) :
    wrapInIife a = "(function() \x7b\n" ++ a ++ "\n\x7d)();\n" ∧
    (wrapInIife a = wrapInIife b → a = b) := by
  refine ⟨rfl, fun h => ?_⟩
  have hd := congrArg String.data h
  simp only [wrapInIife, String.data_append] at hd
  exact String.ext (List.append_cancel_left (List.append_cancel_right hd))

/-- Concrete instance of `C5_wrap` at the body `return;`. -/
theorem C5_witness :
    wrapInIife "return;" = "(function() \x7b\nreturn;\n\x7d)();\n" ∧
    "return;" = "return;" :=
  ⟨(C5_wrap "return;" "return;").1, (C5_wrap "return;" "return;").2 rfl⟩

/-- Claim C6 (confirmed).  A line is classified as could-be-import-region
exactly when it is empty, starts with `//`, starts with `/*`, starts with
the seven characters `import `, starts with a closing brace, or starts with
an ECMAScript whitespace character; and whenever line `i` is the first line
falsifying the predicate, the boundary `bodyStart` equals `i`. -/
theorem C6_classification (line code : String) (i : Nat) :
    (couldBeImportBlockLine line = true ↔
      (line = "" ∨
        (∃ t, line.toList = '/' :: '/' :: t) ∨
        (∃ t, line.toList = '/' :: '*' :: t) ∨
        (∃ t, line.toList = 'i' :: 'm' :: 'p' :: 'o' :: 'r' :: 't' :: ' ' :: t) ∨
        (∃ t, line.toList = '\x7d' :: t) ∨
        (∃ c t, line.toList = c :: t ∧ isJsWhitespace c = true))) ∧
    ((i < (splitLines code).length ∧
        couldBeImportBlockLine ((splitLines code).getD i "") = false ∧
        ∀ j, j < i → couldBeImportBlockLine ((splitLines code).getD j "") = true) →
      regionBoundary code = (i : Int)) := by
  constructor
  · have hws : startsWithWhitespace line = true ↔
        ∃ c t, line.toList = c :: t ∧ isJsWhitespace c = true := by
      simp only [startsWithWhitespace]
      cases hl : line.toList with
      | nil => simp
      | cons c t => simp
    have h1 : "//".toList = ['/', '/'] := rfl
    have h2 : "/*".toList = ['/', '*'] := rfl
    have h3 : "import ".toList = ['i', 'm', 'p', 'o', 'r', 't', ' '] := rfl
    have h4 : "\x7d".toList = ['\x7d'] := rfl
    simp only [couldBeImportBlockLine, Bool.or_eq_true, beq_iff_eq,
      isImportStatementStart, startsWithStr, beginsWithChars_iff, h1, h2, h3, h4,
      List.cons_append, List.nil_append, hws]
    tauto
  · rintro ⟨hi, hfail, hbefore⟩
    apply regionBoundary_of_findIdx?_some
    rw [List.findIdx?_eq_some_iff_getElem]
    simp only [List.getD_eq_getElem?_getD, List.getElem?_eq_getElem hi,
      Option.getD_some] at hfail
    refine ⟨hi, by simp [hfail], ?_⟩
    intro j hj
    have hjlen : j < (splitLines code).length := Nat.lt_trans hj hi
    have hsat := hbefore j hj
    simp only [List.getD_eq_getElem?_getD, List.getElem?_eq_getElem hjlen,
      Option.getD_some] at hsat
    simp [hsat]

/-- Concrete instance of `C6_classification`: in `// c\ng();` line 0
satisfies the predicate and line 1 falsifies it, so the boundary is 1. -/
theorem C6_witness : regionBoundary "// c\ng();" = 1 :=
  (C6_classification "" "// c\ng();" 1).2 (by decide)

/-- Claim C7 (confirmed).  When the eligibility filter rejects the file id,
`transform` returns the distinguished no-change signal for every input text
— even one whose body contains an import — so no splitting, guard check or
wrapping is performed and no error can be raised; and the no-change signal
differs from every transformed-text result. -/
theorem C7_filter (filter : String → Bool) (code id : String) (h : filter id = false) :
    transform filter code id = Except.ok none ∧
    ∀ s : String,
      Except.ok (some s) ≠ (Except.ok none : Except ImportInBodyError (Option String)) :=
  ⟨by simp [transform, h], fun s => by simp⟩

/-- Concrete instance of `C7_filter`: a rejected file whose body contains a
static import is passed through with the no-change signal, and no
`ImportInBodyError` is raised. -/
theorem C7_witness :
    transform (fun _ => false) "h();\nimport \x7b g \x7d from \"y\";" "skip.js" =
      Except.ok none :=
  (C7_filter (fun _ => false) "h();\nimport \x7b g \x7d from \"y\";" "skip.js" rfl).1

/-- Claim C8 (confirmed).  The splitter and wrapper are total Lean functions
over every string; on the empty input the splitter yields empty import- and
body-region texts, and `transform` produces the IIFE wrapper around an
empty body joined to the empty import region by a newline. -/
theorem C8_empty (filter : String → Bool) (id : String) (h : filter id = true) :
    splitSource "" = Except.ok ("", "") ∧
    transform filter "" id = Except.ok (some ("" ++ "\n" ++ wrapInIife "")) ∧
    wrapInIife "" = "(function() \x7b\n\n\x7d)();\n" := by
  refine ⟨by decide, ?_, rfl⟩
  have hsplit : splitSource "" = Except.ok ("", "") := by decide
  simp [transform, h, hsplit, joinLines]

/-- Concrete instance of `C8_empty` with an always-true filter. -/
theorem C8_witness :
    transform (fun _ => true) "" "entry.js" =
      Except.ok (some ("" ++ "\n" ++ wrapInIife "")) :=
  (C8_empty (fun _ => true) "entry.js" rfl).2.1

/-- Claim C10 (confirmed, implicit).  The guard's predicate holds exactly
when a line starts with the seven characters `import ` including the
trailing space; body lines such as `import{f} from "x";` or `import"x";`
raise no error and are silently included in the wrapped output. -/
theorem C10_space_required (line : String) :
    (isImportStatementStart line = true ↔
      ∃ t, line.toList = 'i' :: 'm' :: 'p' :: 'o' :: 'r' :: 't' :: ' ' :: t) ∧
    splitSource "g();\nimport\x7bf\x7d from \"x\";" =
      Except.ok ("", "g();\nimport\x7bf\x7d from \"x\";") ∧
    splitSource "g();\nimport\"x\";" = Except.ok ("", "g();\nimport\"x\";") ∧
    transform (fun _ => true) "g();\nimport\x7bf\x7d from \"x\";" "t.js" =
      Except.ok (some ("" ++ "\n" ++ wrapInIife "g();\nimport\x7bf\x7d from \"x\";")) := by
  refine ⟨?_, by decide, by decide, by decide⟩
  have h3 : "import ".toList = ['i', 'm', 'p', 'o', 'r', 't', ' '] := rfl
  simp only [isImportStatementStart, startsWithStr, beginsWithChars_iff, h3,
    List.cons_append, List.nil_append]
